import Mathlib

/-!
Verification development for the ScalitySproxydSwift repository.

Shallow embedding of:
  * `swift_scality_backend/afd.py` — the phi accrual failure detector
    (`AccrualFailureDetector`);
  * `scality_sproxyd_client/utils.py` — `monitoring_loop` and
    `is_sproxyd_conf_valid`;
  * `scality_sproxyd_client/sproxyd_client.py` — `SproxydClient` endpoint
    routing, `_do_http` status dispatch, `get_meta` / `put_meta` /
    `del_object` / `get_object`, `_ping`;
  * `swift_scality_backend/http_utils.py` — `ClientCollection` and
    `try_read`;
  * the `base64` encode/decode used for the `x-scal-usermd` header.

Modelling conventions: Python floats (wall-clock timestamps, intervals,
means) are embedded as exact rationals; the float transcendental
computations of `phi` (`math.pow(math.e, _)`, `math.log10`) are embedded
as exact real-number functions, so `phi` and the monitoring loop (which
branches on `phi < threshold`) are noncomputable while every other
definition is executable.  Stateful Python objects are embedded as
explicit state-passing functions; `raise` is embedded as `Except.error`.
-/

namespace ScalitySproxyd

/-! ## Accrual failure detector (`swift_scality_backend/afd.py`) -/

/-- State of one `AccrualFailureDetector` instance: `_intervals`,
`_timestamp`, `_mean`.  Floats are embedded as exact rationals. -/
structure AfdState where
  intervals : List ℚ
  timestamp : Option ℚ
  mean : Option ℚ
  deriving DecidableEq, Repr

/-- `AccrualFailureDetector.max_sample_size` (class attribute). -/
def maxSampleSize : ℕ := 1000

/-- `AccrualFailureDetector.threshold` (class attribute), as used in the
real-valued comparison `phi() < threshold`. -/
def threshold : ℝ := 2

/-- `AccrualFailureDetector.__init__`. -/
def afdInit : AfdState := { intervals := [], timestamp := none, mean := none }

/-- The interval-recording body of `heartbeat` (the `else` branch of
`if not self._timestamp`): append `now - t` to the bounded sample FIFO,
popping the head when `max_sample_size` is exceeded, and recompute the
mean when more than one sample exists. -/
def heartbeatUpdate (s : AfdState) (t now : ℚ) : AfdState :=
  let interval := now - t
  let ivs := s.intervals ++ [interval]
  let ivs2 := (if maxSampleSize < ivs.length then ivs.tail else ivs)
  let mean2 :=
    (if 1 < ivs2.length then some (ivs2.sum / (ivs2.length : ℚ)) else s.mean)
  { intervals := ivs2, timestamp := some now, mean := mean2 }

/-- `AccrualFailureDetector.heartbeat`, called at wall-clock time `now`.
The Python guard `if not self._timestamp` is truthy both when
`_timestamp` is `None` and when it is the float `0.0`; the `else` branch
(interval recording, window eviction, mean update) is
`heartbeatUpdate`. -/
def heartbeat (s : AfdState) (now : ℚ) : AfdState :=
  match s.timestamp with
  | none => { s with timestamp := some now }
  | some t =>
    if t = 0 then { s with timestamp := some now }
    else heartbeatUpdate s t now

/-- A fresh detector fed a sequence of heartbeats at the given wall-clock
times, in order. -/
def hbRun (ts : List ℚ) : AfdState := ts.foldl heartbeat afdInit

/-- `AccrualFailureDetector._probability`: the code computes
`1 - (1.0 - math.pow(math.e, -1.0 * t / mean))`, embedded exactly over
the reals. -/
noncomputable def probability (t m : ℚ) : ℝ :=
  let exponent : ℝ := (-1 * (t : ℝ) / (m : ℝ))
  1 - (1 - Real.exp exponent)

/-- `AccrualFailureDetector.phi` evaluated at wall-clock time `now`.
The Python clamp condition `decimal.Decimal(str(prob)).is_zero()` (the
float `prob` prints as zero) is embedded in exact arithmetic as
`prob = 0`. -/
noncomputable def phi (s : AfdState) (now : ℚ) : ℝ :=
  match s.mean with
  | none => threshold + 1
  | some m =>
    let diff : ℚ := now - s.timestamp.getD 0
    let prob : ℝ := probability diff m
    let prob2 : ℝ := (if prob = 0 then 1e-128 else prob);
    -1 * Real.logb 10 prob2

/-- `AccrualFailureDetector.isAlive`: `phi() < threshold`. -/
def isAliveP (s : AfdState) (now : ℚ) : Prop := phi s now < threshold

/-- `AccrualFailureDetector.isDead`: `not isAlive()`. -/
def isDeadP (s : AfdState) (now : ℚ) : Prop := ¬ isAliveP s now

/-! ## Monitoring loop (`scality_sproxyd_client/utils.py`) -/

/-- A callback invocation made by `monitoring_loop`: `on_up` or
`on_down`. -/
inductive MonEvent where
  | up
  | down
  deriving DecidableEq, Repr

/-- State carried between iterations of `monitoring_loop`: the private
detector, the tri-state `is_operational` flag (`None` = unknown), and
the trace of callback invocations so far. -/
structure LoopState where
  afd : AfdState
  isOperational : Option Bool
  events : List MonEvent

/-- Loop state at the top of `monitoring_loop`, before the first tick. -/
def loopInit : LoopState := { afd := afdInit, isOperational := none, events := [] }

open Classical in
/-- The first statement pair of the `while True` body of
`monitoring_loop`, at wall-clock time `now`, where the probe `ping()`
returned `pingOk`:

    if ping():
        afd.heartbeat()
    elif afd.isDead() and is_operational in (True, None):
        on_down(); is_operational = False
-/
noncomputable def downPhase (st : LoopState) (now : ℚ) (pingOk : Bool) : LoopState :=
  if pingOk then { st with afd := heartbeat st.afd now }
  else if isDeadP st.afd now ∧
      (st.isOperational = some true ∨ st.isOperational = none) then
    { st with isOperational := some false,
              events := st.events ++ [MonEvent.down] }
  else st

open Classical in
/-- The second statement of the loop body:

    if afd.isAlive() and is_operational in (False, None):
        on_up(); is_operational = True
-/
noncomputable def upPhase (st : LoopState) (now : ℚ) : LoopState :=
  if isAliveP st.afd now ∧
      (st.isOperational = some false ∨ st.isOperational = none) then
    { st with isOperational := some true, events := st.events ++ [MonEvent.up] }
  else st

/-- One full iteration of the `while True` body of `monitoring_loop`.
The two `time.time()` calls of a single tick are microseconds apart in
the source and are identified with the single instant `now` here. -/
noncomputable def stepTick (st : LoopState) (now : ℚ) (pingOk : Bool) : LoopState :=
  upPhase (downPhase st now pingOk) now

/-- Run the monitoring loop from state `st`, the next tick happening at
wall-clock time `t`, over the given finite list of probe outcomes;
`eventlet.sleep(1)` advances the clock by one second per tick. -/
noncomputable def runFrom (st : LoopState) (t : ℚ) : List Bool → LoopState
  | [] => st
  | p :: ps => runFrom (stepTick st t p) (t + 1) ps

/-! ## Sproxyd configuration validation
(`scality_sproxyd_client/utils.py`: `BY_PATH_ENABLED_RE`,
`is_sproxyd_conf_valid`) -/

/-- Python `\s` (whitespace class of `re`). -/
def isWsCh (c : Char) : Bool :=
  c == ' ' || c == '\t' || c == '\n' || c == '\r' || c == '\x0b' || c == '\x0c'

/-- Character class `[":=]` of `BY_PATH_ENABLED_RE`. -/
def isSepCh (c : Char) : Bool :=
  c == '"' || c == ':' || c == '='

/-- Character class `[",]` of `BY_PATH_ENABLED_RE`. -/
def isTrailCh (c : Char) : Bool :=
  c == '"' || c == ','

/-- Match a literal keyword (given in lowercase) case-insensitively
against the start of `cs`; return the remaining characters. -/
def matchCI : List Char → List Char → Option (List Char)
  | [], cs => some cs
  | _ :: _, [] => none
  | k :: ks, c :: cs => if c.toLower == k then matchCI ks cs else none

/-- `re.match` of `BY_PATH_ENABLED_RE`
(`^\s*"?by_path_enabled[":=]+\s*(1|true)[",]*\s*$`, case-insensitive)
against one line.  Every character class of the pattern is disjoint from
the literal that follows it, so the greedy left-to-right match below is
equivalent to the backtracking regex. -/
def byPathLineMatch (l : List Char) : Bool :=
  let l1 := (l.dropWhile isWsCh);
  let l2 := (match l1 with
    | '"' :: r => r
    | _ => l1);
  match matchCI "by_path_enabled".toList l2 with
  | none => false
  | some l3 =>
    match l3 with
    | [] => false
    | c :: _ =>
      if isSepCh c then
        let l4 := (l3.dropWhile isSepCh);
        let l5 := (l4.dropWhile isWsCh);
        let l6 := (match l5 with
          | '1' :: r => some r
          | _ => matchCI "true".toList l5);
        match l6 with
        | none => false
        | some l7 =>
          let l8 := (l7.dropWhile isTrailCh);
          let l9 := (l8.dropWhile isWsCh);
          l9.isEmpty
      else false

/-- Does some line of `conf` (split on newlines, as in
`conf.split("\n")`) match `BY_PATH_ENABLED_RE`? -/
def confHasByPath (conf : String) : Bool :=
  (conf.splitOn "\n").any (fun line => byPathLineMatch line.toList)

/-- `is_sproxyd_conf_valid`: returns `True` as soon as some line
matches, otherwise raises `SproxydConfException` (the `error` case; the
exception payload is irrelevant here).  Note the function never returns
`False`. -/
def isSproxydConfValid (conf : String) : Except Unit Bool :=
  if confHasByPath conf then Except.ok true else Except.error ()

/-! ## `SproxydClient._ping` (`scality_sproxyd_client/sproxyd_client.py`) -/

/-- Outcome of the `GET <endpoint>/.conf` request issued by `_ping`:
either a response body, or one of the exception classes distinguished by
the three `except` clauses of `_ping`. -/
inductive ReqOutcome where
  | ok (data : String)
  | ioError
  | httpError
  | unexpected
  deriving DecidableEq

/-- `SproxydClient._ping`: run `is_sproxyd_conf_valid` on the response
body; every `except` clause logs and falls through to `return False`. -/
def ping : ReqOutcome → Bool
  | ReqOutcome.ok data =>
    (match isSproxydConfValid data with
     | Except.ok b => b
     | Except.error _ => false)
  | ReqOutcome.ioError => false
  | ReqOutcome.httpError => false
  | ReqOutcome.unexpected => false

/-! ## Exceptions (`swift_scality_backend/exceptions.py`,
`swift_scality_backend/http_utils.py`) -/

/-- Payload of `SproxydHTTPException` (constructor keyword arguments). -/
structure SproxydHTTPError where
  msg : String
  ipaddr : String
  port : ℕ
  basePath : String
  httpStatus : ℕ
  httpReason : String
  deriving DecidableEq, Repr

/-- The Python exceptions relevant to the routing layer:
`SproxydHTTPException`, `http_utils.NoClientAvailable`, the
`StopIteration` raised by an exhausted `itertools.cycle`, and a catch-all
for every other exception class. -/
inductive PyExc where
  | sproxydHTTP (e : SproxydHTTPError)
  | noClientAvailable
  | stopIteration
  | otherExc
  deriving DecidableEq, Repr

/-! ## Endpoint routing (`scality_sproxyd_client/sproxyd_client.py`) -/

/-- The `itertools.cycle` over the alive set: the element snapshot it
was built from and the number of elements already yielded. -/
structure CycleState (α : Type) where
  elems : List α
  pos : ℕ
  deriving DecidableEq, Repr

/-- Routing state of a `SproxydClient`: `_alive` (iteration-order
snapshot of the alive `frozenset`) and `_cycle`. -/
structure ClientState (α : Type) where
  alive : List α
  cyc : CycleState α
  deriving DecidableEq, Repr

/-- `next()` on an `itertools.cycle`: yields the elements in order,
repeating forever; on an empty cycle it raises `StopIteration`. -/
def cycleNext {α : Type} (c : CycleState α) : Except PyExc (α × CycleState α) :=
  match c.elems with
  | [] => Except.error PyExc.stopIteration
  | x :: xs =>
    let l := x :: xs
    Except.ok (l.get ⟨c.pos % l.length, Nat.mod_lt _ (Nat.succ_pos _)⟩,
      { elems := c.elems, pos := c.pos + 1 })

/-- `SproxydClient.get_next_endpoint`: `self._cycle.next()`. -/
def getNextEndpoint {α : Type} (st : ClientState α) :
    Except PyExc (α × ClientState α) :=
  match cycleNext st.cyc with
  | Except.error e => Except.error e
  | Except.ok (ep, c2) => Except.ok (ep, { st with cyc := c2 })

/-- `SproxydClient._alter_alive`: replace the alive set and rebuild the
cycle from scratch over the new set. -/
def alterAlive {α : Type} (st : ClientState α) (fn : List α → List α) :
    ClientState α :=
  let a := fn st.alive
  { alive := a, cyc := { elems := a, pos := 0 } }

/-- `SproxydClient._on_sproxyd_down`: remove the endpoint from the alive
set (`frozenset.difference`) and rebuild the cycle. -/
def onSproxydDown {α : Type} [DecidableEq α] (st : ClientState α) (e : α) :
    ClientState α :=
  alterAlive st (fun s => s.filter (fun x => x ≠ e))

/-- `SproxydClient._on_sproxyd_up`: add the endpoint to the alive set
(`frozenset.union`) and rebuild the cycle. -/
def onSproxydUp {α : Type} [DecidableEq α] (st : ClientState α) (e : α) :
    ClientState α :=
  alterAlive st (fun s => if e ∈ s then s else s ++ [e])

/-- `SproxydClient.has_alive_endpoints`: `len(self._alive) > 0`. -/
def hasAliveEndpoints {α : Type} (st : ClientState α) : Bool :=
  decide (0 < st.alive.length)

/-- Collect the results of `n` consecutive `get_next_endpoint()` calls
(stopping early if the cycle is empty). -/
def nextN {α : Type} (st : ClientState α) : ℕ → List α × ClientState α
  | 0 => ([], st)
  | n + 1 =>
    match getNextEndpoint st with
    | Except.error _ => ([], st)
    | Except.ok (e, st2) =>
      let r := nextN st2 n
      (e :: r.1, r.2)

/-! ## HTTP request dispatch (`SproxydClient._do_http` and the four
object operations, `scality_sproxyd_client/sproxyd_client.py`) -/

/-- An endpoint as used by `_do_http`: the host/port split out of
`netloc` and the base path.  (URL scheme, connection pooling and socket
draining are I/O and are not modelled.) -/
structure Endpoint where
  host : String
  port : ℕ
  path : String
  deriving DecidableEq, Repr

/-- An HTTP response as observed by `_do_http` handlers: status, reason,
body, and the `x-scal-usermd` header (`response.getheader` returns
`None` when absent).  The header value is a byte string. -/
structure Response where
  status : ℕ
  reason : String
  body : String
  usermd : Option (List ℕ)
  deriving DecidableEq, Repr

/-- The `safe_path` built by `_do_http`:
`'/%s/%s' % (endpoint.path.strip('/'), urllib.quote(path))`.
(Slash-stripping and percent-quoting are faithful string plumbing with
no behavioural content for the claims and are elided.) -/
def safePath (ep : Endpoint) (objPath : String) : String :=
  "/" ++ ep.path ++ "/" ++ objPath

/-- The closure `unexpected_http_status` of `_do_http`: raise a
`SproxydHTTPException` carrying the caller name plus response body, the
endpoint host and port, the request path, and the HTTP status and
reason. -/
def unexpectedHttpStatus {β : Type} (caller : String) (ep : Endpoint)
    (objPath : String) (resp : Response) : Except PyExc β :=
  Except.error (PyExc.sproxydHTTP
    { msg := caller ++ ": " ++ resp.body,
      ipaddr := ep.host, port := ep.port,
      basePath := safePath ep objPath,
      httpStatus := resp.status, httpReason := resp.reason })

/-- `handler = handlers.get(response.status, unexpected_http_status);
result = handler(response)`: dispatch on the response status through the
`handlers` dictionary, defaulting to `unexpected_http_status`. -/
def dispatchResp {β : Type} (caller : String) (ep : Endpoint) (objPath : String)
    (handlers : List (ℕ × (Response → Except PyExc β))) (resp : Response) :
    Except PyExc β :=
  match handlers.lookup resp.status with
  | some handler => handler resp
  | none => unexpectedHttpStatus caller ep objPath resp

/-- `SproxydClient._do_http`: draw the next endpoint from the
round-robin cycle (this happens before any network traffic), perform the
request (`req` stands for the network: the response obtained from a
given endpoint), and dispatch on the response status. -/
def doHttp {β : Type} (caller : String) (st : ClientState Endpoint)
    (req : Endpoint → Response) (handlers : List (ℕ × (Response → Except PyExc β)))
    (objPath : String) : Except PyExc β :=
  match getNextEndpoint st with
  | Except.error e => Except.error e
  | Except.ok (ep, _) => dispatchResp caller ep objPath handlers (req ep)

/-! ### base64 (`base64.b64encode` / `base64.b64decode`, used for the
`x-scal-usermd` metadata header) -/

/-- The base64 alphabet: sextet value to ASCII code. -/
def b64AlphaChar (i : ℕ) : ℕ :=
  if i < 26 then 65 + i
  else if i < 52 then 97 + (i - 26)
  else if i < 62 then 48 + (i - 52)
  else if i = 62 then 43
  else 47

/-- Inverse of the base64 alphabet: ASCII code to sextet value. -/
def b64CharVal (c : ℕ) : ℕ :=
  if 65 ≤ c ∧ c ≤ 90 then c - 65
  else if 97 ≤ c ∧ c ≤ 122 then c - 97 + 26
  else if 48 ≤ c ∧ c ≤ 57 then c - 48 + 52
  else if c = 43 then 62
  else 63

/-- ASCII code of the base64 padding character `=`. -/
def b64Pad : ℕ := 61

/-- `base64.b64encode` on a byte string, producing the ASCII codes of
the standard padded base64 encoding. -/
def b64encode : List ℕ → List ℕ
  | [] => []
  | [a] => [b64AlphaChar (a / 4), b64AlphaChar (a % 4 * 16), b64Pad, b64Pad]
  | [a, b] => [b64AlphaChar (a / 4), b64AlphaChar (a % 4 * 16 + b / 16),
      b64AlphaChar (b % 16 * 4), b64Pad]
  | a :: b :: c :: rest =>
    b64AlphaChar (a / 4) :: b64AlphaChar (a % 4 * 16 + b / 16) ::
      b64AlphaChar (b % 16 * 4 + c / 64) :: b64AlphaChar (c % 64) ::
      b64encode rest

/-- `base64.b64decode` on a padded base64 ASCII string. -/
def b64decode : List ℕ → List ℕ
  | c1 :: c2 :: c3 :: c4 :: rest =>
    if c3 = b64Pad then
      [b64CharVal c1 * 4 + b64CharVal c2 / 16]
    else if c4 = b64Pad then
      [b64CharVal c1 * 4 + b64CharVal c2 / 16,
       b64CharVal c2 % 16 * 16 + b64CharVal c3 / 4]
    else
      (b64CharVal c1 * 4 + b64CharVal c2 / 16) ::
        (b64CharVal c2 % 16 * 16 + b64CharVal c3 / 4) ::
        (b64CharVal c3 % 4 * 64 + b64CharVal c4) ::
        b64decode rest
  | _ => []

/-! ### The four object operations.  The opaque `pickle` serialization
of metadata is a parameter: `dumps` (`pickle.dumps`) and `loads`
(`pickle.loads`, `none` standing for an unpickling exception). -/

/-- The `x-scal-usermd` request header value sent by `put_meta`:
`base64.b64encode(pickle.dumps(metadata))`. -/
def putMetaHeader {M : Type} (dumps : M → List ℕ) (m : M) : List ℕ :=
  b64encode (dumps m)

/-- `get_meta`'s `handle_200`: decode
`pickle.loads(base64.b64decode(response.getheader('x-scal-usermd')))`.
A missing header or an unpickling failure is an exception. -/
def handleGetMeta200 {M : Type} (loads : List ℕ → Option M) (resp : Response) :
    Except PyExc (Option M) :=
  match resp.usermd with
  | none => Except.error PyExc.otherExc
  | some header =>
    match loads (b64decode header) with
    | some m => Except.ok (some m)
    | none => Except.error PyExc.otherExc

/-- `SproxydClient.get_meta`: HEAD; 200 decodes the metadata header,
404 yields `None`. -/
def getMeta {M : Type} (loads : List ℕ → Option M) (st : ClientState Endpoint)
    (req : Endpoint → Response) (name : String) : Except PyExc (Option M) :=
  doHttp "get_meta" st req
    [(200, handleGetMeta200 loads), (404, fun _ => Except.ok none)] name

/-- `SproxydClient.put_meta`: `metadata is None` is rejected before any
network call; otherwise PUT with the encoded metadata header, only 200
being handled. -/
def putMeta {M : Type} (dumps : M → List ℕ) (st : ClientState Endpoint)
    (req : Endpoint → Response) (name : String) (metadata : Option M) :
    Except PyExc Unit :=
  match metadata with
  | none => Except.error (PyExc.sproxydHTTP
      { msg := "no usermd", ipaddr := "", port := 0, basePath := "",
        httpStatus := 0, httpReason := "" })
  | some m =>
    let _header := putMetaHeader dumps m
    doHttp "put_meta" st req [(200, fun _ => Except.ok ())] name

/-- `del_object`'s `handle_200_or_404`: both statuses run this same
handler. -/
def handleDel200or404 (_resp : Response) : Except PyExc Unit := Except.ok ()

/-- `SproxydClient.del_object`: DELETE; both 200 and 404 map to
`handle_200_or_404`. -/
def delObject (st : ClientState Endpoint) (req : Endpoint → Response)
    (name : String) : Except PyExc Unit :=
  doHttp "del_object" st req [(200, handleDel200or404), (404, handleDel200or404)] name

/-- `SproxydClient.get_object`: GET; 200 and 206 stream the body
(modelled as returning the response body). -/
def getObject (st : ClientState Endpoint) (req : Endpoint → Response)
    (name : String) : Except PyExc String :=
  doHttp "get_object" st req
    [(200, fun r => Except.ok r.body), (206, fun r => Except.ok r.body)] name

/-! ## `ClientCollection` (`swift_scality_backend/http_utils.py`) -/

/-- `ClientCollection`: ordered read-capable and write-capable client
tuples.  The client type is abstract; `aliveFn` below stands for the
`has_alive_endpoints` property. -/
structure ClientCollection (γ : Type) where
  readClients : List γ
  writeClients : List γ
  deriving DecidableEq, Repr

/-- `ClientCollection._get_client`: the first client, in order, whose
alive set is non-empty; raise `NoClientAvailable` when none qualifies. -/
def getClient {γ : Type} (aliveFn : γ → Bool) (clients : List γ) :
    Except PyExc γ :=
  match clients.find? aliveFn with
  | some c => Except.ok c
  | none => Except.error PyExc.noClientAvailable

/-- `ClientCollection.get_read_client`. -/
def getReadClient {γ : Type} (aliveFn : γ → Bool) (cc : ClientCollection γ) :
    Except PyExc γ :=
  getClient aliveFn cc.readClients

/-- `ClientCollection.get_write_client`. -/
def getWriteClient {γ : Type} (aliveFn : γ → Bool) (cc : ClientCollection γ) :
    Except PyExc γ :=
  getClient aliveFn cc.writeClients

/-- Is an exception a `SproxydHTTPException` with `http_status == 404`?
(the condition tested by `try_read`'s `except` clause). -/
def is404 : PyExc → Bool
  | PyExc.sproxydHTTP e => e.httpStatus == 404
  | _ => false

/-- The final two lines of `try_read`:
`client = self.get_write_client(); return fn(client)` (a failed write
lookup propagates `NoClientAvailable`). -/
def tryWriteFallback {γ β : Type} (aliveFn : γ → Bool) (cc : ClientCollection γ)
    (fn : γ → Except PyExc β) : Except PyExc β :=
  match getWriteClient aliveFn cc with
  | Except.ok c => fn c
  | Except.error e => Except.error e

/-- `ClientCollection.try_read`:

    try:
        client = self.get_read_client()
    except NoClientAvailable:
        pass
    else:
        try:
            return fn(client)
        except SproxydHTTPException as exc:
            if exc.http_status == 404: pass
            else: raise
    client = self.get_write_client()
    return fn(client)
-/
def tryRead {γ β : Type} (aliveFn : γ → Bool) (cc : ClientCollection γ)
    (fn : γ → Except PyExc β) : Except PyExc β :=
  match getReadClient aliveFn cc with
  | Except.error PyExc.noClientAvailable => tryWriteFallback aliveFn cc fn
  | Except.error e => Except.error e
  | Except.ok c =>
    match fn c with
    | Except.ok v => Except.ok v
    | Except.error e =>
      if is404 e then tryWriteFallback aliveFn cc fn else Except.error e

/-- Invariant tying `monitoring_loop`'s `is_operational` flag to the
trace of callback invocations: the flag records the last event fired
(`None` iff no event yet), and consecutive events always differ
(edge-triggering). -/
def LoopInv (st : LoopState) : Prop :=
  (st.isOperational = none → st.events = []) ∧
  (st.isOperational = some true → st.events.getLast? = some MonEvent.up) ∧
  (st.isOperational = some false → st.events.getLast? = some MonEvent.down) ∧
  List.Chain' (fun a b => a ≠ b) st.events

/-! ## Theorems -/

/-- C9: `del_object(name)` completes successfully without raising exactly
when the DELETE response status is 200 or 404 (both statuses running the
same handler), and for every other status it raises a
`SproxydHTTPException` carrying the endpoint host and port, the request
path, and the HTTP status, reason and body. -/
theorem delObject_idempotent_delete :
    ∀ (st st2 : ClientState Endpoint) (ep : Endpoint)
      (req : Endpoint → Response) (name : String),
      getNextEndpoint st = Except.ok (ep, st2) →
      ((delObject st req name = Except.ok () ↔
        ((req ep).status = 200 ∨ (req ep).status = 404)) ∧
      ((req ep).status ≠ 200 → (req ep).status ≠ 404 →
        delObject st req name = Except.error (PyExc.sproxydHTTP
          { msg := "del_object: " ++ (req ep).body,
            ipaddr := ep.host, port := ep.port,
            basePath := safePath ep name,
            httpStatus := (req ep).status,
            httpReason := (req ep).reason }))) := by
  intro st st2 ep req name hnext
  have hd : delObject st req name =
      dispatchResp "del_object" ep name
        [(200, handleDel200or404), (404, handleDel200or404)] (req ep) := by
    simp only [delObject, doHttp, hnext]
  by_cases h200 : (req ep).status = 200
  · rw [hd]
    simp [dispatchResp, List.lookup, h200, handleDel200or404]
  · by_cases h404 : (req ep).status = 404
    · rw [hd]
      simp [dispatchResp, List.lookup, h200, h404, handleDel200or404]
    · have hbeq200 : ((req ep).status == 200) = false := by
        simpa using h200
      have hbeq404 : ((req ep).status == 404) = false := by
        simpa using h404
      rw [hd]
      simp [dispatchResp, List.lookup, hbeq200, hbeq404,
        unexpectedHttpStatus, h200, h404]

/-- Witness for `delObject_idempotent_delete` at a concrete endpoint,
state and 500 response. -/
theorem delObject_idempotent_delete_witness :
    (delObject { alive := [{ host := "h", port := 81, path := "p" }],
                 cyc := { elems := [{ host := "h", port := 81, path := "p" }], pos := 0 } }
        (fun _ => { status := 500, reason := "ISE", body := "boom", usermd := none })
        "obj" = Except.error (PyExc.sproxydHTTP
          { msg := "del_object: " ++ "boom", ipaddr := "h", port := 81,
            basePath := safePath { host := "h", port := 81, path := "p" } "obj",
            httpStatus := 500, httpReason := "ISE" })) :=
  (delObject_idempotent_delete
    { alive := [{ host := "h", port := 81, path := "p" }],
      cyc := { elems := [{ host := "h", port := 81, path := "p" }], pos := 0 } }
    { alive := [{ host := "h", port := 81, path := "p" }],
      cyc := { elems := [{ host := "h", port := 81, path := "p" }], pos := 1 } }
    { host := "h", port := 81, path := "p" }
    (fun _ => { status := 500, reason := "ISE", body := "boom", usermd := none })
    "obj" rfl).2 (by decide) (by decide)

/-- C10: `_ping` never propagates an exception: it returns a boolean,
`true` exactly when the GET of the `.conf` URL completes and its body
passes validation; network/HTTP errors, invalid configuration content
(on which `is_sproxyd_conf_valid` raises rather than returning `False`)
and unexpected exceptions all map to `false`. -/
theorem ping_total_spec :
    (∀ o : ReqOutcome, ping o = true ↔
      ∃ d, o = ReqOutcome.ok d ∧ confHasByPath d = true) ∧
    (∀ d, ping (ReqOutcome.ok d) = confHasByPath d) ∧
    (ping ReqOutcome.ioError = false ∧ ping ReqOutcome.httpError = false ∧
      ping ReqOutcome.unexpected = false) ∧
    (∀ d, isSproxydConfValid d = Except.ok true ∨
      isSproxydConfValid d = Except.error ()) := by
  refine ⟨?_, ?_, ⟨rfl, rfl, rfl⟩, ?_⟩
  · intro o
    cases o with
    | ok d =>
      by_cases h : confHasByPath d
      · simp [ping, isSproxydConfValid, h]
      · simp [ping, isSproxydConfValid, h]
    | ioError => simp [ping]
    | httpError => simp [ping]
    | unexpected => simp [ping]
  · intro d
    by_cases h : confHasByPath d
    · simp [ping, isSproxydConfValid, h]
    · simp [ping, isSproxydConfValid, h]
  · intro d
    by_cases h : confHasByPath d
    · exact Or.inl (by simp [isSproxydConfValid, h])
    · exact Or.inr (by simp [isSproxydConfValid, h])

/-- C1 counterexample: the claim asserts that a "no client available"
error raised during read-client selection propagates immediately without
fallback to the write client; but with no available read client and an
available write client, `try_read` silently falls back and returns the
write client's result instead of propagating `NoClientAvailable`. -/
theorem tryRead_counterexample :
    tryRead (fun c => c) { readClients := [false], writeClients := [true] }
        (fun c => (Except.ok c : Except PyExc Bool)) = Except.ok true ∧
      (Except.ok true : Except PyExc Bool) ≠ Except.error PyExc.noClientAvailable :=
  ⟨rfl, fun h => Except.noConfusion h⟩

/-- C1 (amended): `try_read(fn)` attempts `fn` on the first read client
whose alive set is non-empty; a success is returned as is; if the
attempt raises an HTTP error with status exactly 404, it falls back to
the first available write client and retries `fn` exactly once; any
other exception raised by the read attempt propagates immediately; and a
`NoClientAvailable` error during read-client selection does NOT
propagate: it silently falls back to the write client as well. -/
theorem tryRead_spec :
    (∀ (γ β : Type) (aliveFn : γ → Bool) (cc : ClientCollection γ)
       (fn : γ → Except PyExc β) (c : γ) (v : β),
       getReadClient aliveFn cc = Except.ok c → fn c = Except.ok v →
       tryRead aliveFn cc fn = Except.ok v) ∧
    (∀ (γ β : Type) (aliveFn : γ → Bool) (cc : ClientCollection γ)
       (fn : γ → Except PyExc β) (c : γ) (e : PyExc),
       getReadClient aliveFn cc = Except.ok c → fn c = Except.error e →
       is404 e = true →
       tryRead aliveFn cc fn = tryWriteFallback aliveFn cc fn) ∧
    (∀ (γ β : Type) (aliveFn : γ → Bool) (cc : ClientCollection γ)
       (fn : γ → Except PyExc β) (c : γ) (e : PyExc),
       getReadClient aliveFn cc = Except.ok c → fn c = Except.error e →
       is404 e = false →
       tryRead aliveFn cc fn = Except.error e) ∧
    (∀ (γ β : Type) (aliveFn : γ → Bool) (cc : ClientCollection γ)
       (fn : γ → Except PyExc β),
       getReadClient aliveFn cc = Except.error PyExc.noClientAvailable →
       tryRead aliveFn cc fn = tryWriteFallback aliveFn cc fn) := by
  refine ⟨?_, ?_, ?_, ?_⟩
  · intro γ β aliveFn cc fn c v hread hfn
    simp only [tryRead, hread, hfn]
  · intro γ β aliveFn cc fn c e hread hfn h404
    simp only [tryRead, hread, hfn, h404, if_true]
  · intro γ β aliveFn cc fn c e hread hfn h404
    simp only [tryRead, hread, hfn, h404, Bool.false_eq_true, if_false]
  · intro γ β aliveFn cc fn hread
    simp only [tryRead, hread]

/-- Witness for `tryRead_spec`: concrete read/write collections
exercising the success, 404-fallback, propagate and no-read-client
cases. -/
theorem tryRead_spec_witness :
    (tryRead (fun c => c) { readClients := [true], writeClients := [true] }
      (fun c => (Except.ok c : Except PyExc Bool)) = Except.ok true) ∧
    (tryRead (fun c : ℕ => decide (0 < c)) { readClients := [1], writeClients := [2] }
      (fun c => if c = 1 then
          (Except.error (PyExc.sproxydHTTP
            { msg := "m", ipaddr := "i", port := 0, basePath := "p",
              httpStatus := 404, httpReason := "NF" }) : Except PyExc ℕ)
        else Except.ok c) =
      tryWriteFallback (fun c : ℕ => decide (0 < c)) { readClients := [1], writeClients := [2] }
        (fun c => if c = 1 then
            (Except.error (PyExc.sproxydHTTP
              { msg := "m", ipaddr := "i", port := 0, basePath := "p",
                httpStatus := 404, httpReason := "NF" }) : Except PyExc ℕ)
          else Except.ok c)) ∧
    (tryRead (fun c : ℕ => decide (0 < c)) { readClients := [1], writeClients := [2] }
      (fun _ => (Except.error PyExc.otherExc : Except PyExc ℕ)) =
        Except.error PyExc.otherExc) ∧
    (tryRead (fun c : ℕ => decide (0 < c)) { readClients := [0], writeClients := [2] }
      (fun c => (Except.ok c : Except PyExc ℕ)) =
      tryWriteFallback (fun c : ℕ => decide (0 < c)) { readClients := [0], writeClients := [2] }
        (fun c => (Except.ok c : Except PyExc ℕ))) := by
  refine ⟨?_, ?_, ?_, ?_⟩
  · exact tryRead_spec.1 Bool Bool (fun c => c) _ _ true true rfl rfl
  · exact tryRead_spec.2.1 ℕ ℕ (fun c => decide (0 < c)) _ _ 1 _ rfl rfl
      (by decide)
  · exact tryRead_spec.2.2.1 ℕ ℕ (fun c => decide (0 < c)) _ _ 1 PyExc.otherExc
      rfl rfl (by decide)
  · exact tryRead_spec.2.2.2 ℕ ℕ (fun c => decide (0 < c)) _ _ rfl

/-- On a client whose cycle snapshot is empty, `get_next_endpoint`
raises `StopIteration` (the behaviour of `next()` on an
`itertools.cycle` built over an empty set). -/
theorem getNextEndpoint_empty {α : Type} (st : ClientState α)
    (h : st.cyc.elems = []) :
    getNextEndpoint st = Except.error PyExc.stopIteration := by
  unfold getNextEndpoint cycleNext
  rw [h]

/-- C5 counterexample: the claim asserts that with an empty alive set an
object operation fails with a clear "no endpoint available" error (the
repository's descriptive error being `NoClientAvailable`); but
`del_object` on an empty alive set fails with the bare `StopIteration`
of the exhausted cycle, which is not the `NoClientAvailable` error. -/
theorem emptyAlive_counterexample :
    delObject { alive := [], cyc := { elems := [], pos := 0 } }
        (fun _ => { status := 200, reason := "OK", body := "", usermd := none })
        "obj" = Except.error PyExc.stopIteration ∧
      PyExc.stopIteration ≠ PyExc.noClientAvailable :=
  ⟨rfl, by decide⟩

/-- C5 (amended): whenever the alive set (and hence the cycle snapshot
rebuilt from it) is empty, each of `get_meta`, `put_meta`, `del_object`
and `get_object` fails immediately, before attempting any network call
(the result does not depend on the network oracle `req`), by raising the
`StopIteration` of the exhausted endpoint cycle — not a descriptive
"no endpoint available" error, which exists only in
`ClientCollection._get_client` one layer up. -/
theorem emptyAlive_ops_fail_fast :
    ∀ (M : Type) (loads : List ℕ → Option M) (dumps : M → List ℕ)
      (st : ClientState Endpoint) (req : Endpoint → Response)
      (name : String) (m : M),
      st.cyc.elems = [] →
      getMeta loads st req name = Except.error PyExc.stopIteration ∧
      putMeta dumps st req name (some m) = Except.error PyExc.stopIteration ∧
      delObject st req name = Except.error PyExc.stopIteration ∧
      getObject st req name = Except.error PyExc.stopIteration := by
  intro M loads dumps st req name m h
  have hnext := getNextEndpoint_empty st h
  refine ⟨?_, ?_, ?_, ?_⟩
  · simp only [getMeta, doHttp, hnext]
  · simp only [putMeta, doHttp, hnext]
  · simp only [delObject, doHttp, hnext]
  · simp only [getObject, doHttp, hnext]

/-- Witness for `emptyAlive_ops_fail_fast` on a concrete empty client
state. -/
theorem emptyAlive_ops_fail_fast_witness :
    getMeta (fun bs => some bs) { alive := [], cyc := { elems := [], pos := 3 } }
        (fun _ => { status := 200, reason := "OK", body := "", usermd := none })
        "o" = Except.error PyExc.stopIteration ∧
      delObject { alive := [], cyc := { elems := [], pos := 3 } }
        (fun _ => { status := 200, reason := "OK", body := "", usermd := none })
        "o" = Except.error PyExc.stopIteration := by
  have h := emptyAlive_ops_fail_fast (List ℕ) (fun bs => some bs) (fun bs => bs)
    { alive := [], cyc := { elems := [], pos := 3 } }
    (fun _ => { status := 200, reason := "OK", body := "", usermd := none })
    "o" [] rfl
  exact ⟨h.1, h.2.2.1⟩

/-- The base64 alphabet is inverted by `b64CharVal` on sextet values. -/
theorem b64CharVal_alpha : ∀ s : ℕ, s < 64 → b64CharVal (b64AlphaChar s) = s := by
  decide

/-- No alphabet character is the padding character. -/
theorem b64AlphaChar_ne_pad : ∀ s : ℕ, s < 64 → b64AlphaChar s ≠ b64Pad := by
  decide

/-- `b64decode` is a left inverse of `b64encode` on byte strings. -/
theorem b64_roundtrip :
    ∀ bs : List ℕ, (∀ x ∈ bs, x < 256) → b64decode (b64encode bs) = bs := by
  intro bs
  induction bs using b64encode.induct with
  | case1 =>
    intro _
    rfl
  | case2 a =>
    intro hb
    have ha : a < 256 := hb a (by simp)
    have h1 : a / 4 < 64 := by omega
    have h2 : a % 4 * 16 < 64 := by omega
    rw [b64encode, b64decode, if_pos rfl, b64CharVal_alpha _ h1,
      b64CharVal_alpha _ h2]
    simp only [List.cons.injEq, and_true]
    omega
  | case3 a b =>
    intro hb
    have ha : a < 256 := hb a (by simp)
    have hb2 : b < 256 := hb b (by simp)
    have h1 : a / 4 < 64 := by omega
    have h2 : a % 4 * 16 + b / 16 < 64 := by omega
    have h3 : b % 16 * 4 < 64 := by omega
    have hne : b64AlphaChar (b % 16 * 4) ≠ b64Pad := b64AlphaChar_ne_pad _ h3
    rw [b64encode, b64decode, if_neg hne, if_pos rfl, b64CharVal_alpha _ h1,
      b64CharVal_alpha _ h2, b64CharVal_alpha _ h3]
    simp only [List.cons.injEq, and_true]
    constructor
    · omega
    · omega
  | case4 a b c rest ih =>
    intro hb
    have ha : a < 256 := hb a (by simp)
    have hb2 : b < 256 := hb b (by simp)
    have hc : c < 256 := hb c (by simp)
    have hrest : ∀ x ∈ rest, x < 256 := fun x hx => hb x (by simp [hx])
    have h1 : a / 4 < 64 := by omega
    have h2 : a % 4 * 16 + b / 16 < 64 := by omega
    have h3 : b % 16 * 4 + c / 64 < 64 := by omega
    have h4 : c % 64 < 64 := by omega
    have hne3 : b64AlphaChar (b % 16 * 4 + c / 64) ≠ b64Pad :=
      b64AlphaChar_ne_pad _ h3
    have hne4 : b64AlphaChar (c % 64) ≠ b64Pad := b64AlphaChar_ne_pad _ h4
    rw [b64encode, b64decode, if_neg hne3, if_neg hne4, b64CharVal_alpha _ h1,
      b64CharVal_alpha _ h2, b64CharVal_alpha _ h3, b64CharVal_alpha _ h4,
      ih hrest]
    simp only [List.cons.injEq, and_true]
    refine ⟨by omega, by omega, by omega⟩

/-- C8: for every metadata value `M` accepted by the encoder, a
`put_meta` followed by a `get_meta` returns a value equal to `M`: the
decoding applied by `get_meta` (unpickling the base64-decoded response
header) is a left inverse of the encoding applied by `put_meta` (base64
of the pickled metadata), assuming the pickle pair round-trips and the
remote store returns the stored `x-scal-usermd` header unchanged. -/
theorem meta_round_trip :
    ∀ (M : Type) (dumps : M → List ℕ) (loads : List ℕ → Option M),
      (∀ m, ∀ x ∈ dumps m, x < 256) →
      (∀ m, loads (dumps m) = some m) →
      (∀ m : M, loads (b64decode (putMetaHeader dumps m)) = some m) ∧
      (∀ (st st2 : ClientState Endpoint) (ep : Endpoint)
         (req : Endpoint → Response) (name : String) (m : M),
         getNextEndpoint st = Except.ok (ep, st2) →
         (req ep).status = 200 →
         (req ep).usermd = some (putMetaHeader dumps m) →
         getMeta loads st req name = Except.ok (some m)) := by
  intro M dumps loads hbytes hround
  have hdec : ∀ m : M, loads (b64decode (putMetaHeader dumps m)) = some m := by
    intro m
    rw [putMetaHeader, b64_roundtrip (dumps m) (hbytes m), hround]
  refine ⟨hdec, ?_⟩
  intro st st2 ep req name m hnext hstatus husermd
  have hd : getMeta loads st req name =
      dispatchResp "get_meta" ep name
        [(200, handleGetMeta200 loads), (404, fun _ => Except.ok none)]
        (req ep) := by
    simp only [getMeta, doHttp, hnext]
  rw [hd]
  unfold dispatchResp
  rw [hstatus]
  simp only [List.lookup, beq_self_eq_true, handleGetMeta200, husermd, hdec m]

/-- Witness for `meta_round_trip` with a concrete boolean metadata codec
and a concrete single-endpoint client. -/
theorem meta_round_trip_witness :
    getMeta (fun l => if l = [1] then some true else if l = [0] then some false
        else none)
      { alive := [{ host := "h", port := 81, path := "p" }],
        cyc := { elems := [{ host := "h", port := 81, path := "p" }], pos := 0 } }
      (fun _ => { status := 200, reason := "OK", body := "",
                  usermd := some (putMetaHeader
                    (fun (b : Bool) => [if b then 1 else 0]) true) })
      "obj" = Except.ok (some true) :=
  (meta_round_trip Bool (fun b => [if b then 1 else 0])
    (fun l => if l = [1] then some true else if l = [0] then some false else none)
    (by decide) (by decide)).2
    { alive := [{ host := "h", port := 81, path := "p" }],
      cyc := { elems := [{ host := "h", port := 81, path := "p" }], pos := 0 } }
    { alive := [{ host := "h", port := 81, path := "p" }],
      cyc := { elems := [{ host := "h", port := 81, path := "p" }], pos := 1 } }
    { host := "h", port := 81, path := "p" }
    (fun _ => { status := 200, reason := "OK", body := "",
                usermd := some (putMetaHeader
                  (fun (b : Bool) => [if b then 1 else 0]) true) })
    "obj" true rfl rfl rfl

/-- Projection: the sample list produced by `heartbeatUpdate`. -/
theorem heartbeatUpdate_intervals (s : AfdState) (t now : ℚ) :
    (heartbeatUpdate s t now).intervals =
      (if maxSampleSize < (s.intervals ++ [now - t]).length
       then (s.intervals ++ [now - t]).tail else s.intervals ++ [now - t]) :=
  rfl

/-- Projection: the timestamp produced by `heartbeatUpdate`. -/
theorem heartbeatUpdate_timestamp (s : AfdState) (t now : ℚ) :
    (heartbeatUpdate s t now).timestamp = some now :=
  rfl

/-- `heartbeat` on a detector with no previous timestamp only records
the timestamp. -/
theorem heartbeat_ts_none (s : AfdState) (now : ℚ) (h : s.timestamp = none) :
    heartbeat s now = { s with timestamp := some now } := by
  unfold heartbeat
  rw [h]

/-- `heartbeat` on a detector with a non-falsy previous timestamp runs
the interval-recording branch. -/
theorem heartbeat_ts_some (s : AfdState) (now u : ℚ) (h : s.timestamp = some u)
    (hu : u ≠ 0) : heartbeat s now = heartbeatUpdate s u now := by
  unfold heartbeat
  rw [h]
  simp [hu]

/-- One heartbeat preserves the sample-window bound. -/
theorem heartbeat_length_le (s : AfdState) (t : ℚ)
    (h : s.intervals.length ≤ maxSampleSize) :
    (heartbeat s t).intervals.length ≤ maxSampleSize := by
  rcases hts : s.timestamp with _ | u
  · rw [heartbeat_ts_none s t hts]
    exact h
  · by_cases hu : u = 0
    · unfold heartbeat
      rw [hts, hu]
      simp only [if_pos rfl]
      exact h
    · rw [heartbeat_ts_some s t u hts hu, heartbeatUpdate_intervals]
      split_ifs with hlen
      · simp only [List.length_tail, List.length_append,
          List.length_singleton] at hlen ⊢
        omega
      · simp only [List.length_append, List.length_singleton] at hlen ⊢
        omega

/-- Every reachable detector state keeps at most `max_sample_size`
interval samples. -/
theorem foldl_heartbeat_length_le (ts : List ℚ) :
    ∀ s : AfdState, s.intervals.length ≤ maxSampleSize →
      (ts.foldl heartbeat s).intervals.length ≤ maxSampleSize := by
  induction ts with
  | nil => intro s h; exact h
  | cons t ts ih =>
    intro s h
    exact ih (heartbeat s t) (heartbeat_length_le s t h)

/-- C6: after every call to `heartbeat()` the stored interval-sample
list holds at most `max_sample_size` (1000) entries, the oldest sample
being evicted first when the bound would be exceeded; in particular,
after any number of heartbeats a fresh detector's sample count never
exceeds `max_sample_size`. -/
theorem bounded_sample_window :
    (∀ ts : List ℚ, (hbRun ts).intervals.length ≤ maxSampleSize) ∧
    (∀ (s : AfdState) (t u : ℚ), s.timestamp = some u → u ≠ 0 →
      maxSampleSize ≤ s.intervals.length →
      (heartbeat s t).intervals = s.intervals.tail ++ [t - u]) := by
  constructor
  · intro ts
    exact foldl_heartbeat_length_le ts afdInit (by simp [afdInit])
  · intro s t u hts hu hlen
    rw [heartbeat_ts_some s t u hts hu, heartbeatUpdate_intervals]
    have hgt : maxSampleSize < (s.intervals ++ [t - u]).length := by
      simp only [List.length_append, List.length_singleton]
      omega
    rw [if_pos hgt]
    have hne : s.intervals ≠ [] := by
      intro hnil
      rw [hnil] at hlen
      simp [maxSampleSize] at hlen
    exact List.tail_append_singleton_of_ne_nil hne

/-- Witness for `bounded_sample_window`: the global bound on a concrete
run, and eviction of the oldest sample at a concrete full window. -/
theorem bounded_sample_window_witness :
    (hbRun [1, 2, 3]).intervals.length ≤ maxSampleSize ∧
    (heartbeat { intervals := List.replicate 1000 1, timestamp := some 1,
                 mean := none } 2).intervals =
      (List.replicate 1000 (1 : ℚ)).tail ++ [2 - 1] := by
  constructor
  · exact bounded_sample_window.1 [1, 2, 3]
  · exact bounded_sample_window.2
      { intervals := List.replicate 1000 1, timestamp := some 1, mean := none }
      2 1 rfl (by norm_num)
      (by simp only [List.length_replicate, maxSampleSize, le_refl])

/-- In the no-mean branch, `phi` returns `threshold + 1`. -/
theorem phi_mean_none (s : AfdState) (now : ℚ) (h : s.mean = none) :
    phi s now = threshold + 1 := by
  unfold phi
  rw [h]

/-- `_probability` computes exactly the direct exponential survival
function `exp(-t/mean)` (the code's `1 - (1 - e^x)` collapses). -/
theorem probability_eq (t m : ℚ) :
    probability t m = Real.exp (-1 * (t : ℝ) / (m : ℝ)) := by
  unfold probability
  ring

/-- The survival probability is never zero in exact arithmetic, so the
`1e-128` clamp never fires and `log10` is never taken of zero. -/
theorem probability_ne_zero (t m : ℚ) : probability t m ≠ 0 := by
  rw [probability_eq]
  exact (Real.exp_pos _).ne'

/-- In the mean-present branch, `phi` is `-log10(exp(-(now - last)/mean))`. -/
theorem phi_mean_some (s : AfdState) (now ts m : ℚ) (hm : s.mean = some m)
    (hts : s.timestamp = some ts) :
    phi s now = -1 * Real.logb 10 (Real.exp (-1 * ((now - ts : ℚ) : ℝ) / (m : ℝ))) := by
  unfold phi
  rw [hm]
  simp only [hts, Option.getD_some]
  rw [if_neg (probability_ne_zero _ _), probability_eq]

/-- With no mean the detector always reports dead. -/
theorem not_aliveP_of_mean_none (s : AfdState) (now : ℚ) (h : s.mean = none) :
    ¬ isAliveP s now := by
  unfold isAliveP
  rw [phi_mean_none s now h]
  unfold threshold
  norm_num

/-- Immediately after a heartbeat (elapsed time zero) a detector with a
mean reports alive: `phi = -log10(exp 0) = 0 < threshold`. -/
theorem aliveP_of_ts_now (s : AfdState) (now m : ℚ) (hm : s.mean = some m)
    (hts : s.timestamp = some now) : isAliveP s now := by
  unfold isAliveP
  rw [phi_mean_some s now now m hm hts]
  simp only [sub_self, Rat.cast_zero, mul_zero, zero_div, Real.exp_zero,
    Real.logb_one, mul_zero, neg_zero]
  unfold threshold
  norm_num

/-- The mean produced by `heartbeatUpdate` as a function of the updated
sample list. -/
theorem heartbeatUpdate_mean (s : AfdState) (t now : ℚ) :
    (heartbeatUpdate s t now).mean =
      (if 1 < (heartbeatUpdate s t now).intervals.length
       then some ((heartbeatUpdate s t now).intervals.sum /
         ((heartbeatUpdate s t now).intervals.length : ℚ))
       else s.mean) :=
  rfl

/-- `heartbeatUpdate` keeps an existing mean present (it either
recomputes it or leaves the old one). -/
theorem heartbeatUpdate_mean_isSome (s : AfdState) (t now m : ℚ)
    (hm : s.mean = some m) :
    ∃ m2, (heartbeatUpdate s t now).mean = some m2 := by
  rw [heartbeatUpdate_mean]
  split_ifs with h
  · exact ⟨_, rfl⟩
  · exact ⟨m, hm⟩

/-- State of a fresh detector after a sequence of heartbeats at positive
times: the timestamp is the last heartbeat time, the sample count is the
capped number of inter-arrival intervals, and a mean exists exactly once
three or more heartbeats happened. -/
theorem hbRun_state (ts : List ℚ) (hpos : ∀ x ∈ ts, 0 < x) :
    ∀ h : ts ≠ [],
      (hbRun ts).timestamp = some (ts.getLast h) ∧
      (hbRun ts).intervals.length = min (ts.length - 1) maxSampleSize ∧
      ((hbRun ts).mean = none ↔ ts.length ≤ 2) := by
  induction ts using List.reverseRecOn with
  | nil =>
    intro h
    exact absurd rfl h
  | append_singleton l t ih =>
    intro _
    have hstep : hbRun (l ++ [t]) = heartbeat (hbRun l) t := by
      simp [hbRun, List.foldl_append]
    have hposl : ∀ x ∈ l, 0 < x := fun x hx => hpos x (by simp [hx])
    rcases eq_or_ne l [] with hl | hl
    · subst hl
      have h0 : hbRun ([] : List ℚ) = afdInit := rfl
      rw [hstep, h0, heartbeat_ts_none afdInit t rfl]
      refine ⟨by simp, by simp [afdInit], by simp [afdInit]⟩
    · obtain ⟨hts, hlen, hmean⟩ := ih hposl hl
      have hlast_pos : 0 < l.getLast hl := hposl _ (List.getLast_mem hl)
      have hlast_ne : l.getLast hl ≠ 0 := ne_of_gt hlast_pos
      rw [hstep, heartbeat_ts_some (hbRun l) t (l.getLast hl) hts hlast_ne]
      have hlen1 : 1 ≤ l.length := by
        rcases l with _ | _
        · exact absurd rfl hl
        · simp
      have hivs : (heartbeatUpdate (hbRun l) (l.getLast hl) t).intervals.length =
          min ((l ++ [t]).length - 1) maxSampleSize := by
        rw [heartbeatUpdate_intervals]
        split_ifs with hcap
        · simp only [List.length_tail, List.length_append,
            List.length_singleton] at hcap ⊢
          omega
        · simp only [List.length_append, List.length_singleton] at hcap ⊢
          omega
      refine ⟨?_, hivs, ?_⟩
      · rw [heartbeatUpdate_timestamp, List.getLast_append_singleton]
      · rw [heartbeatUpdate_mean]
        split_ifs with hgt
        · refine iff_of_false (by simp) ?_
          rw [hivs] at hgt
          simp only [List.length_append, List.length_singleton] at hgt ⊢
          unfold maxSampleSize at hgt
          omega
        · rw [hivs] at hgt
          simp only [List.length_append, List.length_singleton] at hgt ⊢
          have hl2 : l.length ≤ 2 := by
            unfold maxSampleSize at hgt
            omega
          have hmn : (hbRun l).mean = none := hmean.mpr hl2
          rw [hmn]
          simp only [true_iff]
          unfold maxSampleSize at hgt
          omega

/-- C3 counterexample: the claim asserts a mean exists once 2 or more
heartbeats have been recorded; but after exactly two heartbeats only one
interval sample exists and `_mean` is still `None` (the code requires
`len(self._intervals) > 1`, i.e. three heartbeats). -/
theorem cold_start_counterexample :
    [(1 : ℚ), 2].length = 2 ∧ (hbRun [(1 : ℚ), 2]).mean = none := by
  constructor
  · rfl
  · decide

/-- C3 (amended): `phi()` returns `threshold + 1` exactly in the
no-mean branch, which holds while fewer than 3 heartbeats (not 2, as the
claim states) have been recorded; a detector with zero, one or two
heartbeats reports dead; and once a mean exists `phi()` is computed from
the exponential formula instead. -/
theorem cold_start_phi :
    (∀ (s : AfdState) (now : ℚ), s.mean = none → phi s now = threshold + 1) ∧
    (∀ (s : AfdState) (now ts m : ℚ), s.mean = some m → s.timestamp = some ts →
      phi s now =
        -1 * Real.logb 10 (Real.exp (-1 * ((now - ts : ℚ) : ℝ) / (m : ℝ)))) ∧
    (∀ ts : List ℚ, (∀ x ∈ ts, 0 < x) →
      ((hbRun ts).mean = none ↔ ts.length ≤ 2)) ∧
    (∀ (ts : List ℚ) (now : ℚ), (∀ x ∈ ts, 0 < x) → ts.length ≤ 2 →
      ¬ isAliveP (hbRun ts) now) := by
  have hmean : ∀ ts : List ℚ, (∀ x ∈ ts, 0 < x) →
      ((hbRun ts).mean = none ↔ ts.length ≤ 2) := by
    intro ts hpos
    rcases eq_or_ne ts [] with h | h
    · subst h
      simp [hbRun, afdInit]
    · exact (hbRun_state ts hpos h).2.2
  refine ⟨phi_mean_none, phi_mean_some, hmean, ?_⟩
  intro ts now hpos hlen
  exact not_aliveP_of_mean_none _ _ ((hmean ts hpos).mpr hlen)

/-- Witness for `cold_start_phi` at concrete detectors and heartbeat
sequences. -/
theorem cold_start_phi_witness :
    phi afdInit 5 = threshold + 1 ∧
    ((hbRun [(1 : ℚ), 2, 3]).mean = none ↔ [(1 : ℚ), 2, 3].length ≤ 2) ∧
    ¬ isAliveP (hbRun [(2 : ℚ), 9]) 11 := by
  refine ⟨?_, ?_, ?_⟩
  · exact cold_start_phi.1 afdInit 5 rfl
  · exact cold_start_phi.2.2.1 [(1 : ℚ), 2, 3] (by decide)
  · exact cold_start_phi.2.2.2 [(2 : ℚ), 9] 11 (by decide) (by decide)

/-- C4: whenever a mean exists, `phi()` equals `-log10(P)` with
`P = exp(-elapsed/mean)` — the direct exponential survival function, not
its complement `1 - exp(-elapsed/mean)` — and in exact arithmetic `P` is
never zero, so the `1e-128` clamp (which fires exactly when `P` equals
zero) never changes `P` and the logarithm is never taken of zero. -/
theorem phi_exponential_formula :
    (∀ t m : ℚ, probability t m = Real.exp (-1 * (t : ℝ) / (m : ℝ))) ∧
    (∀ t m : ℚ, probability t m ≠ 0 ∧
      (if probability t m = 0 then (1e-128 : ℝ) else probability t m) =
        probability t m) ∧
    (∀ (s : AfdState) (now ts m : ℚ), s.mean = some m → s.timestamp = some ts →
      phi s now = -1 * Real.logb 10 (probability (now - ts) m)) ∧
    probability 1 1 ≠ 1 - Real.exp (-1 * ((1 : ℚ) : ℝ) / ((1 : ℚ) : ℝ)) := by
  refine ⟨probability_eq, ?_, ?_, ?_⟩
  · intro t m
    exact ⟨probability_ne_zero t m, if_neg (probability_ne_zero t m)⟩
  · intro s now ts m hm hts
    rw [phi_mean_some s now ts m hm hts, probability_eq]
  · rw [probability_eq]
    have harg : (-1 * ((1 : ℚ) : ℝ) / ((1 : ℚ) : ℝ)) = -1 := by
      push_cast
      norm_num
    rw [harg]
    have h2 : (2 : ℝ) < Real.exp 1 := by
      have := Real.exp_one_gt_d9
      linarith
    have hlt : Real.exp (-1) < 1 / 2 := by
      rw [Real.exp_neg]
      rw [inv_lt_comm₀ (Real.exp_pos 1) (by norm_num)]
      linarith
    intro heq
    linarith

/-- Witness for `phi_exponential_formula` at a concrete detector
state. -/
theorem phi_exponential_formula_witness :
    phi { intervals := [1, 1], timestamp := some 1, mean := some 1 } 3 =
      -1 * Real.logb 10 (probability (3 - 1) 1) :=
  phi_exponential_formula.2.2.1
    { intervals := [1, 1], timestamp := some 1, mean := some 1 } 3 1 1 rfl rfl

/-- One `get_next_endpoint` call on a non-empty cycle yields the element
at the cursor position and advances the cursor. -/
theorem getNextEndpoint_cons {α : Type} (alive : List α) (x : α) (xs : List α)
    (pos : ℕ) :
    getNextEndpoint { alive := alive, cyc := { elems := x :: xs, pos := pos } } =
      Except.ok ((x :: xs).get ⟨pos % (x :: xs).length, Nat.mod_lt _ (Nat.succ_pos _)⟩,
        { alive := alive, cyc := { elems := x :: xs, pos := pos + 1 } }) :=
  rfl

/-- Unfolding of `nextN` over a non-empty cycle: one read plus the
remaining reads from the advanced cursor. -/
theorem nextN_cons_step {α : Type} (alive : List α) (x : α) (xs : List α)
    (pos n : ℕ) :
    nextN { alive := alive, cyc := { elems := x :: xs, pos := pos } } (n + 1) =
      ((x :: xs).get ⟨pos % (x :: xs).length, Nat.mod_lt _ (Nat.succ_pos _)⟩ ::
        (nextN { alive := alive, cyc := { elems := x :: xs, pos := pos + 1 } } n).1,
       (nextN { alive := alive, cyc := { elems := x :: xs, pos := pos + 1 } } n).2) :=
  rfl

/-- The outputs of `k` consecutive `get_next_endpoint` calls, as indexed
reads of the cycle snapshot. -/
theorem nextN_formula {α : Type} (elems : List α) (hpos0 : 0 < elems.length) :
    ∀ (k : ℕ) (alive : List α) (pos : ℕ),
      (nextN { alive := alive, cyc := { elems := elems, pos := pos } } k).1 =
        (List.range k).map
          (fun i => elems.get ⟨(pos + i) % elems.length, Nat.mod_lt _ hpos0⟩) := by
  intro k
  induction k with
  | zero => intro alive pos; rfl
  | succ n ih =>
    intro alive pos
    rcases elems with _ | ⟨x, xs⟩
    · simp at hpos0
    · rw [nextN_cons_step]
      dsimp only
      rw [ih alive (pos + 1), List.range_succ_eq_map, List.map_cons,
        List.map_map]
      congr 1
      apply List.map_congr_left
      intro i _
      simp only [Function.comp_apply, Nat.succ_eq_add_one]
      apply congr_arg
      apply Fin.ext
      show (pos + 1 + i) % (x :: xs).length = (pos + (i + 1)) % (x :: xs).length
      have harith : pos + 1 + i = pos + (i + 1) := by omega
      rw [harith]

/-- Every output of `nextN` is an element of the cycle snapshot. -/
theorem nextN_mem {α : Type} :
    ∀ (k : ℕ) (st : ClientState α) (z : α),
      z ∈ (nextN st k).1 → z ∈ st.cyc.elems := by
  intro k
  induction k with
  | zero =>
    intro st z hz
    exact absurd hz (List.not_mem_nil z)
  | succ n ih =>
    intro st z hz
    rcases st with ⟨alive, ⟨elems, pos⟩⟩
    rcases elems with _ | ⟨x, xs⟩
    · exact absurd hz (List.not_mem_nil z)
    · rw [nextN_cons_step] at hz
      dsimp only at hz
      rcases List.mem_cons.mp hz with h | h
      · rw [h]
        exact List.get_mem _ _ _
      · exact ih { alive := alive, cyc := { elems := x :: xs, pos := pos + 1 } }
          z h

/-- C7: with the cycle snapshot equal to the alive set (as maintained by
`_alter_alive`), `N = len(alive)` consecutive `get_next_endpoint()`
calls return each alive endpoint exactly once (the outputs are a
rotation of the snapshot); and after `_on_sproxyd_down` removes an
endpoint and rebuilds the cursor over the new set, no later
`get_next_endpoint()` output is ever the removed endpoint. -/
theorem round_robin_correct {α : Type} [DecidableEq α] :
    (∀ (st : ClientState α) (e : α),
      st.cyc.elems = st.alive → st.alive.Nodup → e ∈ st.alive →
      ((nextN st st.alive.length).1.count e = 1)) ∧
    (∀ (st : ClientState α) (e : α) (k : ℕ) (z : α),
      z ∈ (nextN (onSproxydDown st e) k).1 → z ≠ e) := by
  constructor
  · intro st e h1 h2 he
    rcases st with ⟨alive, ⟨elems, pos⟩⟩
    dsimp only at h1 h2 he ⊢
    subst h1
    have hne : elems ≠ [] := List.ne_nil_of_mem he
    have hpos0 : 0 < elems.length := List.length_pos.mpr hne
    rw [nextN_formula elems hpos0 elems.length elems pos]
    have hrot : (List.range elems.length).map
        (fun i => elems.get ⟨(pos + i) % elems.length, Nat.mod_lt _ hpos0⟩) =
        elems.rotate pos := by
      apply List.ext_get
      · simp
      · intro i hi1 hi2
        rw [List.get_map, List.get_rotate]
        apply congr_arg
        apply Fin.ext
        show (pos + (List.range elems.length).get _) % elems.length = _
        rw [List.get_range]
        dsimp only
        rw [Nat.add_comm]
    rw [hrot, (List.rotate_perm elems pos).count_eq]
    exact List.count_eq_one_of_mem h2 he
  · intro st e k z hz
    have hmem := nextN_mem k (onSproxydDown st e) z hz
    have helems : (onSproxydDown st e).cyc.elems =
        st.alive.filter (fun a => a ≠ e) := rfl
    rw [helems] at hmem
    simp only [List.mem_filter, decide_not] at hmem
    intro hcontra
    rcases hmem with ⟨_, hb⟩
    rw [hcontra] at hb
    simp at hb

/-- Witness for `round_robin_correct` on concrete natural-number
endpoints. -/
theorem round_robin_correct_witness :
    ((nextN { alive := [10, 20, 30], cyc := { elems := [10, 20, 30], pos := 5 } }
        [10, 20, 30].length).1.count 20 = 1) ∧
    ((1 : ℕ) ≠ 2) := by
  constructor
  · exact round_robin_correct.1
      { alive := [10, 20, 30], cyc := { elems := [10, 20, 30], pos := 5 } }
      20 rfl (by decide) (by decide)
  · exact round_robin_correct.2
      { alive := [1, 2], cyc := { elems := [1, 2], pos := 0 } } 2 3 1 (by decide)

/-- `downPhase` on a successful probe records a heartbeat. -/
theorem downPhase_true (st : LoopState) (now : ℚ) :
    downPhase st now true = { st with afd := heartbeat st.afd now } := by
  unfold downPhase
  rw [if_pos rfl]

/-- `downPhase` on a failed probe with a dead detector in the up or
unknown state fires `on_down`. -/
theorem downPhase_false_fires (st : LoopState) (now : ℚ)
    (hdead : isDeadP st.afd now)
    (hop : st.isOperational = some true ∨ st.isOperational = none) :
    downPhase st now false =
      { st with isOperational := some false,
                events := st.events ++ [MonEvent.down] } := by
  unfold downPhase
  rw [if_neg (fun h => Bool.noConfusion h), if_pos ⟨hdead, hop⟩]

/-- `downPhase` on a failed probe otherwise does nothing. -/
theorem downPhase_false_skip (st : LoopState) (now : ℚ)
    (h : ¬ (isDeadP st.afd now ∧
      (st.isOperational = some true ∨ st.isOperational = none))) :
    downPhase st now false = st := by
  unfold downPhase
  rw [if_neg (fun h2 => Bool.noConfusion h2), if_neg h]

/-- `upPhase` with an alive detector in the down or unknown state fires
`on_up`. -/
theorem upPhase_fires (st : LoopState) (now : ℚ)
    (halive : isAliveP st.afd now)
    (hop : st.isOperational = some false ∨ st.isOperational = none) :
    upPhase st now =
      { st with isOperational := some true,
                events := st.events ++ [MonEvent.up] } := by
  unfold upPhase
  rw [if_pos ⟨halive, hop⟩]

/-- `upPhase` otherwise does nothing. -/
theorem upPhase_skip (st : LoopState) (now : ℚ)
    (h : ¬ (isAliveP st.afd now ∧
      (st.isOperational = some false ∨ st.isOperational = none))) :
    upPhase st now = st := by
  unfold upPhase
  rw [if_neg h]

/-- A successful tick only heartbeats and possibly fires `on_up`; it
never fires `on_down`, even when the detector's phi classifies the
endpoint as dead. -/
theorem stepTick_true_count_down (st : LoopState) (now : ℚ) :
    (stepTick st now true).events.count MonEvent.down =
      st.events.count MonEvent.down := by
  unfold stepTick
  rw [downPhase_true]
  unfold upPhase
  split_ifs with h
  · simp [List.count_append]
  · rfl

/-- A successful tick whose updated detector still lacks a mean fires no
callback (not alive yet), only recording the heartbeat. -/
theorem stepTick_true_nomean (st : LoopState) (now : ℚ)
    (hmean : (heartbeat st.afd now).mean = none) :
    stepTick st now true = { st with afd := heartbeat st.afd now } := by
  unfold stepTick
  rw [downPhase_true]
  apply upPhase_skip
  intro hcontra
  exact not_aliveP_of_mean_none _ now hmean hcontra.1

/-- A successful tick whose updated detector has a mean, in the up
state, fires no callback. -/
theorem stepTick_true_up_stable (st : LoopState) (now : ℚ)
    (hop : st.isOperational = some true) :
    stepTick st now true = { st with afd := heartbeat st.afd now } := by
  unfold stepTick
  rw [downPhase_true]
  apply upPhase_skip
  intro hcontra
  rcases hcontra.2 with h | h
  · rw [hop] at h
    exact Option.noConfusion h (fun h2 => Bool.noConfusion h2)
  · rw [hop] at h
    exact Option.noConfusion h

/-- A successful tick whose updated detector has a mean, in the down or
unknown state, fires `on_up` and moves the flag to `True`. -/
theorem stepTick_true_fires (st : LoopState) (now : ℚ) (m : ℚ)
    (hmean : (heartbeat st.afd now).mean = some m)
    (hts : (heartbeat st.afd now).timestamp = some now)
    (hop : st.isOperational = some false ∨ st.isOperational = none) :
    stepTick st now true =
      { afd := heartbeat st.afd now, isOperational := some true,
        events := st.events ++ [MonEvent.up] } := by
  unfold stepTick
  rw [downPhase_true]
  rw [upPhase_fires
    { afd := heartbeat st.afd now, isOperational := st.isOperational,
      events := st.events }
    now (aliveP_of_ts_now _ now m hmean hts) hop]

/-- A failing tick in the up or unknown state with a dead detector
fires `on_down` (and, the detector being dead at the same instant, the
up check does not fire). -/
theorem stepTick_false_fires (st : LoopState) (now : ℚ)
    (hdead : isDeadP st.afd now)
    (hop : st.isOperational = some true ∨ st.isOperational = none) :
    stepTick st now false =
      { st with isOperational := some false,
                events := st.events ++ [MonEvent.down] } := by
  unfold stepTick
  rw [downPhase_false_fires st now hdead hop]
  apply upPhase_skip
  intro hcontra
  exact hdead hcontra.1

/-- A failing tick in the already-down state is a no-op when the
detector has no mean (still dead, hence neither callback fires). -/
theorem stepTick_false_stable (st : LoopState) (now : ℚ)
    (hmean : st.afd.mean = none) (hop : st.isOperational = some false) :
    stepTick st now false = st := by
  unfold stepTick
  rw [downPhase_false_skip]
  · apply upPhase_skip
    intro hcontra
    exact not_aliveP_of_mean_none st.afd now hmean hcontra.1
  · intro hcontra
    rw [hop] at hcontra
    rcases hcontra.2 with h | h
    · exact Option.noConfusion h (fun h2 => Bool.noConfusion h2)
    · exact Option.noConfusion h

/-- A run of failing ticks leaves an already-down, mean-less loop state
untouched. -/
theorem runFrom_allFalse_stable :
    ∀ (ps : List Bool) (t : ℚ) (st : LoopState),
      (∀ p ∈ ps, p = false) → st.afd.mean = none →
      st.isOperational = some false → runFrom st t ps = st := by
  intro ps
  induction ps with
  | nil => intro t st _ _ _; rfl
  | cons p ps ih =>
    intro t st hps hmean hop
    have hp : p = false := hps p (List.mem_cons_self p ps)
    subst hp
    show runFrom (stepTick st t false) (t + 1) ps = st
    rw [stepTick_false_stable st t hmean hop]
    exact ih (t + 1) st (fun q hq => hps q (List.mem_cons_of_mem _ hq)) hmean hop

/-- A run of successful ticks in the up state with an established mean
and a fresh positive timestamp fires no further callback. -/
theorem runFrom_allTrue_stable :
    ∀ (ps : List Bool) (t : ℚ) (st : LoopState),
      (∀ p ∈ ps, p = true) → st.isOperational = some true →
      (∃ m, st.afd.mean = some m) → st.afd.timestamp = some (t - 1) →
      (0 : ℚ) < t - 1 → (runFrom st t ps).events = st.events := by
  intro ps
  induction ps with
  | nil => intro t st _ _ _ _ _; rfl
  | cons p ps ih =>
    intro t st hps hop hmean hts hpos
    obtain ⟨m, hm⟩ := hmean
    have hp : p = true := hps p (List.mem_cons_self p ps)
    subst hp
    have hne : t - 1 ≠ 0 := ne_of_gt hpos
    have hhb : heartbeat st.afd t = heartbeatUpdate st.afd (t - 1) t :=
      heartbeat_ts_some st.afd t (t - 1) hts hne
    show (runFrom (stepTick st t true) (t + 1) ps).events = st.events
    rw [stepTick_true_up_stable st t hop]
    rw [ih (t + 1) { st with afd := heartbeat st.afd t }
      (fun q hq => hps q (List.mem_cons_of_mem _ hq)) hop ?hm2 ?hts2 ?hpos2]
    case hm2 =>
      show ∃ m2, (heartbeat st.afd t).mean = some m2
      rw [hhb]
      exact heartbeatUpdate_mean_isSome st.afd (t - 1) t m hm
    case hts2 =>
      show (heartbeat st.afd t).timestamp = some (t + 1 - 1)
      rw [hhb, heartbeatUpdate_timestamp]
      congr 1
      ring
    case hpos2 =>
      have : (0 : ℚ) < t := by linarith
      linarith [this]

/-- `LoopInv` survives replacing the detector while keeping flag and
events. -/
theorem LoopInv_keep (a : AfdState) (st : LoopState) (h : LoopInv st) :
    LoopInv { afd := a, isOperational := st.isOperational, events := st.events } :=
  h

/-- Appending an `up` event from the down or unknown state preserves
`LoopInv`. -/
theorem LoopInv_push_up (a : AfdState) (st : LoopState) (h : LoopInv st)
    (hop : st.isOperational = some false ∨ st.isOperational = none) :
    LoopInv { afd := a, isOperational := some true,
              events := st.events ++ [MonEvent.up] } := by
  obtain ⟨h0, h1, h2, hch⟩ := h
  refine ⟨fun hcontra => Option.noConfusion hcontra, ?_, ?_, ?_⟩
  · intro _
    exact List.getLast?_concat _
  · intro hcontra
    exact absurd hcontra (by simp)
  · rw [List.chain'_append]
    refine ⟨hch, List.chain'_singleton _, ?_⟩
    intro x hx y hy
    have hy2 : y = MonEvent.up := by
      simp only [List.head?_cons, Option.mem_def, Option.some.injEq] at hy
      exact hy.symm
    subst hy2
    rcases hop with hf | hn
    · rw [h2 hf] at hx
      simp only [Option.mem_def, Option.some.injEq] at hx
      rw [← hx]
      intro hcontra
      exact MonEvent.noConfusion hcontra
    · rw [h0 hn] at hx
      simp at hx

/-- Appending a `down` event from the up or unknown state preserves
`LoopInv`. -/
theorem LoopInv_push_down (a : AfdState) (st : LoopState) (h : LoopInv st)
    (hop : st.isOperational = some true ∨ st.isOperational = none) :
    LoopInv { afd := a, isOperational := some false,
              events := st.events ++ [MonEvent.down] } := by
  obtain ⟨h0, h1, h2, hch⟩ := h
  refine ⟨fun hcontra => Option.noConfusion hcontra, ?_, ?_, ?_⟩
  · intro hcontra
    exact absurd hcontra (by simp)
  · intro _
    exact List.getLast?_concat _
  · rw [List.chain'_append]
    refine ⟨hch, List.chain'_singleton _, ?_⟩
    intro x hx y hy
    have hy2 : y = MonEvent.down := by
      simp only [List.head?_cons, Option.mem_def, Option.some.injEq] at hy
      exact hy.symm
    subst hy2
    rcases hop with hf | hn
    · rw [h1 hf] at hx
      simp only [Option.mem_def, Option.some.injEq] at hx
      rw [← hx]
      intro hcontra
      exact MonEvent.noConfusion hcontra
    · rw [h0 hn] at hx
      simp at hx

/-- One loop iteration preserves `LoopInv` (edge-triggering: the flag
always matches the last event, and consecutive events differ). -/
theorem stepTick_LoopInv (st : LoopState) (now : ℚ) (p : Bool)
    (h : LoopInv st) : LoopInv (stepTick st now p) := by
  cases p with
  | true =>
    unfold stepTick
    rw [downPhase_true]
    by_cases hu : isAliveP (heartbeat st.afd now) now ∧
        (st.isOperational = some false ∨ st.isOperational = none)
    · rw [upPhase_fires
        { afd := heartbeat st.afd now, isOperational := st.isOperational,
          events := st.events } now hu.1 hu.2]
      exact LoopInv_push_up _ st h hu.2
    · rw [upPhase_skip
        { afd := heartbeat st.afd now, isOperational := st.isOperational,
          events := st.events } now hu]
      exact LoopInv_keep _ st h
  | false =>
    unfold stepTick
    by_cases hc : isDeadP st.afd now ∧
        (st.isOperational = some true ∨ st.isOperational = none)
    · rw [downPhase_false_fires st now hc.1 hc.2]
      rw [upPhase_skip
        { afd := st.afd, isOperational := some false,
          events := st.events ++ [MonEvent.down] } now
        (fun hcontra => hc.1 hcontra.1)]
      exact LoopInv_push_down _ st h hc.2
    · rw [downPhase_false_skip st now hc]
      by_cases hu : isAliveP st.afd now ∧
          (st.isOperational = some false ∨ st.isOperational = none)
      · rw [upPhase_fires st now hu.1 hu.2]
        exact LoopInv_push_up _ st h hu.2
      · rw [upPhase_skip st now hu]
        exact h

/-- Every run of the monitoring loop preserves `LoopInv`. -/
theorem runFrom_LoopInv :
    ∀ (ps : List Bool) (t : ℚ) (st : LoopState),
      LoopInv st → LoopInv (runFrom st t ps) := by
  intro ps
  induction ps with
  | nil => intro t st h; exact h
  | cons p ps ih =>
    intro t st h
    exact ih (t + 1) (stepTick st t p) (stepTick_LoopInv st t p h)

/-- `stepTick_true_nomean` with the loop state given field-wise. -/
theorem stepTick_true_nomean2 (a : AfdState) (iop : Option Bool)
    (ev : List MonEvent) (now : ℚ) (hm : (heartbeat a now).mean = none) :
    stepTick { afd := a, isOperational := iop, events := ev } now true =
      { afd := heartbeat a now, isOperational := iop, events := ev } :=
  stepTick_true_nomean _ now hm

/-- `stepTick_true_fires` with the loop state given field-wise. -/
theorem stepTick_true_fires2 (a : AfdState) (iop : Option Bool)
    (ev : List MonEvent) (now m : ℚ) (hm : (heartbeat a now).mean = some m)
    (hts : (heartbeat a now).timestamp = some now)
    (hop : iop = some false ∨ iop = none) :
    stepTick { afd := a, isOperational := iop, events := ev } now true =
      { afd := heartbeat a now, isOperational := some true,
        events := ev ++ [MonEvent.up] } :=
  stepTick_true_fires _ now m hm hts hop

/-- `stepTick_false_fires` with the loop state given field-wise. -/
theorem stepTick_false_fires2 (a : AfdState) (iop : Option Bool)
    (ev : List MonEvent) (now : ℚ) (hdead : isDeadP a now)
    (hop : iop = some true ∨ iop = none) :
    stepTick { afd := a, isOperational := iop, events := ev } now false =
      { afd := a, isOperational := some false,
        events := ev ++ [MonEvent.down] } :=
  stepTick_false_fires _ now hdead hop

/-- C2: the monitoring loop is edge-triggered.  From the unknown state:
a probe failing on every tick fires `on_down` exactly once in total; a
probe succeeding on every tick fires `on_up` exactly once in total (the
first determination needs three ticks of heartbeat history); a tick
whose probe succeeds never fires `on_down`, even when the detector's phi
classifies the endpoint as dead; and consecutive callback invocations
always differ (never repeated in the same state). -/
theorem monitoring_loop_edge_triggered :
    (∀ (t0 : ℚ) (ps : List Bool), (∀ p ∈ ps, p = false) → ps ≠ [] →
      (runFrom loopInit t0 ps).events = [MonEvent.down]) ∧
    (∀ (t0 : ℚ) (ps : List Bool), 0 < t0 → (∀ p ∈ ps, p = true) →
      3 ≤ ps.length → (runFrom loopInit t0 ps).events = [MonEvent.up]) ∧
    (∀ (st : LoopState) (now : ℚ),
      (stepTick st now true).events.count MonEvent.down =
        st.events.count MonEvent.down) ∧
    (∀ (t0 : ℚ) (ps : List Bool),
      List.Chain' (fun a b => a ≠ b) (runFrom loopInit t0 ps).events) := by
  refine ⟨?_, ?_, stepTick_true_count_down, ?_⟩
  · intro t0 ps hps hne
    rcases ps with _ | ⟨p, ps⟩
    · exact absurd rfl hne
    · have hp : p = false := hps p (List.mem_cons_self p ps)
      subst hp
      have hrest : ∀ q ∈ ps, q = false :=
        fun q hq => hps q (List.mem_cons_of_mem _ hq)
      show (runFrom (stepTick
        { afd := { intervals := [], timestamp := none, mean := none },
           isOperational := none, events := [] } t0 false)
        (t0 + 1) ps).events = [MonEvent.down]
      rw [stepTick_false_fires2 _ none [] t0
        (not_aliveP_of_mean_none _ t0 rfl) (Or.inr rfl)]
      rw [runFrom_allFalse_stable ps (t0 + 1) _ hrest rfl rfl]
      rfl
  · intro t0 ps ht0 hps hlen
    rcases ps with _ | ⟨p1, _ | ⟨p2, _ | ⟨p3, rest⟩⟩⟩
    · simp at hlen
    · simp at hlen
    · simp at hlen
    have h1 : p1 = true := hps p1 (by simp)
    have h2 : p2 = true := hps p2 (by simp)
    have h3 : p3 = true := hps p3 (by simp)
    subst h1
    subst h2
    subst h3
    have hrest : ∀ q ∈ rest, q = true := fun q hq => hps q (by simp [hq])
    have hb1 : heartbeat { intervals := ([] : List ℚ), timestamp := none, mean := none } t0 =
        { intervals := ([] : List ℚ), timestamp := some t0, mean := none } :=
      heartbeat_ts_none _ t0 rfl
    have hb2 : heartbeat { intervals := ([] : List ℚ), timestamp := some t0, mean := none } (t0 + 1) =
        { intervals := [t0 + 1 - t0], timestamp := some (t0 + 1), mean := none } := by
      rw [heartbeat_ts_some _ (t0 + 1) t0 rfl (ne_of_gt ht0)]
      exact rfl
    have hb3 : heartbeat { intervals := [t0 + 1 - t0], timestamp := some (t0 + 1), mean := none } (t0 + 1 + 1) =
        { intervals := [t0 + 1 - t0, t0 + 1 + 1 - (t0 + 1)],
          timestamp := some (t0 + 1 + 1),
          mean := some ((t0 + 1 - t0 + (t0 + 1 + 1 - (t0 + 1) + 0)) / 2) } := by
      rw [heartbeat_ts_some _ (t0 + 1 + 1) (t0 + 1) rfl
        (ne_of_gt (by linarith : (0 : ℚ) < t0 + 1))]
      exact rfl
    show (runFrom (stepTick (stepTick (stepTick
      { afd := { intervals := [], timestamp := none, mean := none },
         isOperational := none, events := [] } t0 true)
      (t0 + 1) true) (t0 + 1 + 1) true) (t0 + 1 + 1 + 1) rest).events =
      [MonEvent.up]
    rw [stepTick_true_nomean2 _ none [] t0 (by rw [hb1])]
    rw [hb1]
    rw [stepTick_true_nomean2 _ none [] (t0 + 1) (by rw [hb2])]
    rw [hb2]
    rw [stepTick_true_fires2 _ none [] (t0 + 1 + 1)
      ((t0 + 1 - t0 + (t0 + 1 + 1 - (t0 + 1) + 0)) / 2)
      (by rw [hb3]) (by rw [hb3]) (Or.inr rfl)]
    rw [hb3]
    rw [runFrom_allTrue_stable rest (t0 + 1 + 1 + 1) _ hrest rfl ⟨_, rfl⟩
      ?ts ?pos]
    · rfl
    case ts =>
      show some (t0 + 1 + 1) = some (t0 + 1 + 1 + 1 - 1)
      congr 1
      ring
    case pos => linarith
  · intro t0 ps
    have hinv : LoopInv loopInit :=
      ⟨fun _ => rfl, fun h => Option.noConfusion h,
       fun h => Option.noConfusion h, List.chain'_nil⟩
    exact (runFrom_LoopInv ps t0 loopInit hinv).2.2.2

/-- Witness for `monitoring_loop_edge_triggered` on concrete probe
sequences. -/
theorem monitoring_loop_edge_triggered_witness :
    (runFrom loopInit 1 [false, false]).events = [MonEvent.down] ∧
    (runFrom loopInit 1 [true, true, true, true]).events = [MonEvent.up] := by
  constructor
  · exact monitoring_loop_edge_triggered.1 1 [false, false] (by decide)
      (by decide)
  · exact monitoring_loop_edge_triggered.2.1 1 [true, true, true, true]
      (by norm_num) (by decide) (by decide)

end ScalitySproxyd